import Mathlib

/-!
Shallow embedding of `src/weighted_maximum_matching/algorithms.py`.

Modelling conventions:
* Items are an arbitrary type `α` with decidable equality (Python compares items
  with `==`).
* Python `Vertex` objects are embedded as values; the program only ever observes
  a vertex through its `item` (its `__eq__`/`__lt__` compare items), so the
  object references held in `neigbors` and in edge endpoints are embedded by
  their items.
* Mutation (`add_neighbor` mutates vertices in place) is embedded by explicit
  state passing: functions return the updated vertices.
* Python exceptions are embedded with `Except PyErr`.
-/

/-- Python runtime errors that the embedded code can raise. -/
inductive PyErr where
  | nameError
  | attributeError
deriving DecidableEq, Repr

/-- Embeds class `Edge` (lines 60-133): two endpoints and a numeric weight.
Endpoints are embedded by their items (see the module conventions above). -/
structure EdgeData (α : Type) where
  vertex_1 : α
  vertex_2 : α
  weight : Int
deriving DecidableEq, Repr

/-- Embeds class `Vertex` (lines 1-57).  The adjacency list attribute is spelled
`neigbors` in the source (line 12); edges incident to the vertex are kept in
`edges`, positionally aligned with `neigbors`. -/
structure Vertex (α : Type) where
  item : α
  neigbors : List α
  edges : List (EdgeData α)
deriving DecidableEq, Repr

/-- Embeds `Vertex.add_neighbor` (lines 45-57): appends `other_vertex` to
`self.neigbors` and `edge` to `self.edges`; returns the updated vertex. -/
def Vertex.add_neighbor (self : Vertex α) (other_vertex : Vertex α)
    (edge : EdgeData α) : Vertex α :=
  { self with
      neigbors := self.neigbors ++ [other_vertex.item]
      edges := self.edges ++ [edge] }

/-- Embeds `Edge.__init__` (lines 74-79).  The constructor receives a `weight`
argument (default 1) but line 77 stores the literal `1` (`self.weight = 1`),
discarding the argument; it then registers the edge on both endpoints via
`add_neighbor`.  Returns the edge together with the two updated endpoints. -/
def Edge.init (vertex_1 vertex_2 : Vertex α) (weight : Int) :
    EdgeData α × Vertex α × Vertex α :=
  let e : EdgeData α := { vertex_1 := vertex_1.item, vertex_2 := vertex_2.item, weight := 1 }
  (e, vertex_1.add_neighbor vertex_2 e, vertex_2.add_neighbor vertex_1 e)

/-- Embeds the method `Edge._get_parallels` (lines 109-122): compares the two
endpoint pairs in forward (`parallel`) and swapped (`reverse`) order, using
Vertex `__eq__`, i.e. item equality. -/
def EdgeData._get_parallels [DecidableEq α] (self other : EdgeData α) : Bool × Bool :=
  (self.vertex_1 == other.vertex_1 && self.vertex_2 == other.vertex_2,
   self.vertex_1 == other.vertex_2 && self.vertex_2 == other.vertex_1)

/-- Embeds `Edge.__lt__` (lines 87-91).  After the `isinstance` guard (always
satisfied here, both operands being edges), line 90 evaluates the free name
`_get_parallels`.  That name is not bound at module scope — the helper exists
only as the instance method `Edge._get_parallels` — so CPython raises
`NameError` before any comparison logic runs. -/
def edgeLt (self other : EdgeData α) : Except PyErr Bool := .error .nameError

/-- Embeds `Edge.__eq__` (lines 81-85): the same unbound-name failure as
`edgeLt` (line 84 also calls the free name `_get_parallels`). -/
def edgeEq (self other : EdgeData α) : Except PyErr Bool := .error .nameError

/-- Embeds the comparison `item > current_max` performed inside Python's
builtin `max`: `Edge` defines no `__gt__`, so CPython falls back to the
reflected `__lt__` of the right operand, which raises (see `edgeLt`). -/
def edgeGt (self other : EdgeData α) : Except PyErr Bool := edgeLt other self

/-- Embeds `max(self.edges)` for a non-empty list as evaluated by CPython:
keep a running maximum, comparing each further element to it with `>`. -/
def pyMaxGo (best : EdgeData α) : List (EdgeData α) → Except PyErr (EdgeData α)
  | [] => .ok best
  | e :: rest =>
      match edgeGt e best with
      | .ok gt => pyMaxGo (if gt then e else best) rest
      | .error err => .error err

/-- Embeds the property `Vertex.heaviest_edge` (lines 33-43): `max` on an empty
sequence raises `ValueError`, which the property catches, returning `None`
(embedded as `.ok none`); any other exception — in particular the `NameError`
arising from comparing two edges — propagates. -/
def Vertex.heaviest_edge (self : Vertex α) : Except PyErr (Option (EdgeData α)) :=
  match self.edges with
  | [] => .ok none
  | e :: rest => (pyMaxGo e rest).map some

/-- Embeds the default matching-predicate pipeline of `MatchingGraph`
(lines 299-427) applied to one `(x, y)` pair:
`get_x_set_condition_values` / `get_y_set_condition_values` wrap the vertices,
`get_conditions` produces the one-element tuple `(x_value == y_value,)` —
Vertex equality, i.e. item equality —, `assess_match` is `any(conditions)` and
`assess_compatibility` counts the true conditions.  The overridable hooks are
embedded as a function from the two items to `(is_match, compatibility)`. -/
def default_check [DecidableEq α] (x_item y_item : α) : Bool × Int :=
  let conditions : List Bool := [x_item == y_item]
  (conditions.any id, ((conditions.countP id : Nat) : Int))

/-- A pipeline override that judges every pair a match with compatibility 1
(the `get_conditions`/`assess_match` hooks are documented extension points).
Used to exercise behaviour that the default item-equality rule cannot reach. -/
def constTrueCheck (x_item y_item : α) : Bool × Int := (true, 1)

/-- Inner loop of `_build_edges` (lines 437-445) for `according_to_x_set=True`:
one outer x-vertex `vx` against every y-vertex in order.  `vertices` is
`(vertex_a, vertex_b) = (x, y)`, so `_check_match` receives `(x, y)` and the
edge is constructed as `edge_class(x, y, compatibility)`.  Returns the updated
x-vertex, the updated y-vertices, and the edges appended in order. -/
def buildRow (chk : α → α → Bool × Int) (vx : Vertex α) :
    List (Vertex α) → Vertex α × List (Vertex α) × List (EdgeData α)
  | [] => (vx, [], [])
  | vy :: ys =>
      let c := chk vx.item vy.item
      if c.1 then
        let r := Edge.init vx vy c.2
        let rest := buildRow chk r.2.1 ys
        (rest.1, r.2.2 :: rest.2.1, r.1 :: rest.2.2)
      else
        let rest := buildRow chk vx ys
        (rest.1, vy :: rest.2.1, rest.2.2)

/-- `_build_edges` with `according_to_x_set=True` (lines 429-445):
`a_vertices, b_vertices = (x_vertices, y_vertices)`, outer loop over x.
Returns the updated x-vertices, updated y-vertices and the edge list. -/
def buildTrue (chk : α → α → Bool × Int) :
    List (Vertex α) → List (Vertex α) →
      List (Vertex α) × List (Vertex α) × List (EdgeData α)
  | [], yvs => ([], yvs, [])
  | vx :: xs, yvs =>
      let row := buildRow chk vx yvs
      let rest := buildTrue chk xs row.2.1
      (row.1 :: rest.1, rest.2.1, row.2.2 ++ rest.2.2)

/-- Inner loop of `_build_edges` for `according_to_x_set=False`: one outer
y-vertex `vy` against every x-vertex in order.  `vertices` is
`(vertex_b, vertex_a) = (x, y)`, so `_check_match` again receives `(x, y)` and
the edge is again constructed as `edge_class(x, y, compatibility)`. -/
def buildCol (chk : α → α → Bool × Int) (vy : Vertex α) :
    List (Vertex α) → Vertex α × List (Vertex α) × List (EdgeData α)
  | [] => (vy, [], [])
  | vx :: xs =>
      let c := chk vx.item vy.item
      if c.1 then
        let r := Edge.init vx vy c.2
        let rest := buildCol chk r.2.2 xs
        (rest.1, r.2.1 :: rest.2.1, r.1 :: rest.2.2)
      else
        let rest := buildCol chk vy xs
        (rest.1, vx :: rest.2.1, rest.2.2)

/-- `_build_edges` with `according_to_x_set=False` (lines 429-445):
`a_vertices, b_vertices = (y_vertices, x_vertices)`, outer loop over y.
Returns the updated x-vertices, updated y-vertices and the edge list. -/
def buildFalse (chk : α → α → Bool × Int) :
    List (Vertex α) → List (Vertex α) →
      List (Vertex α) × List (Vertex α) × List (EdgeData α)
  | xvs, [] => (xvs, [], [])
  | xvs, vy :: ys =>
      let col := buildCol chk vy xvs
      let rest := buildFalse chk col.2.1 ys
      (rest.1, col.1 :: rest.2.1, col.2.2 ++ rest.2.2)

/-- Embeds `MatchingGraph._build_edges` (lines 429-445), dispatching on
`according_to_x_set` exactly as the double list-index idiom in the source
does: `True` makes x the outer loop, `False` makes y the outer loop; either
way each `(x, y)` pair is checked once and a matching pair yields
`edge_class(x_vertex, y_vertex, compatibility)`. -/
def build_edges (according_to_x_set : Bool) (chk : α → α → Bool × Int)
    (xvs yvs : List (Vertex α)) :
    List (Vertex α) × List (Vertex α) × List (EdgeData α) :=
  if according_to_x_set then buildTrue chk xvs yvs else buildFalse chk xvs yvs

/-- Embeds `MatchingGraph.evaluate_match` (lines 447-453) for one vertex:
computes `vertex.heaviest_edge` and, when the result is truthy (an `Edge`
object is always truthy, `None` is falsy), appends it to `matches`. -/
def evaluate_match (ms : List (EdgeData α)) (v : Vertex α) :
    Except PyErr (List (EdgeData α)) :=
  match v.heaviest_edge with
  | .ok (some e) => .ok (ms ++ [e])
  | .ok none => .ok ms
  | .error err => .error err

/-- The loop of `MatchingGraph.match` (lines 462-463): `evaluate_match` on
each vertex in order, threading the accumulated `matches` list. -/
def matchLoop : List (Vertex α) → List (EdgeData α) → Except PyErr (List (EdgeData α))
  | [], ms => .ok ms
  | v :: vs, ms =>
      match evaluate_match ms v with
      | .ok next => matchLoop vs next
      | .error err => .error err

/-- Embeds `MatchingGraph.match` (lines 455-464).  Line 460 selects
`[self.x_vertices, self.y_vertices][adherence]`: the y-vertices when
`according_to_x_set` is `True`, the x-vertices when it is `False`.  Line 461
(`pdb.set_trace()`) suspends execution in the interactive debugger; it reads
and writes no program state, so it is embedded as a no-op. -/
def matchPhase (according_to_x_set : Bool) (xvs yvs : List (Vertex α)) :
    Except PyErr (List (EdgeData α)) :=
  let vertices := if according_to_x_set then yvs else xvs
  matchLoop vertices []

/-- The state of a fully constructed `MatchingGraph` (lines 136-223). -/
structure MatchingGraph (α : Type) where
  x_vertices : List (Vertex α)
  y_vertices : List (Vertex α)
  edges : List (EdgeData α)
  «matches» : List (EdgeData α)
  according_to_x_set : Bool
deriving DecidableEq, Repr

/-- Embeds `MatchingGraph._initialize_vertices` (lines 265-297) with the
default `Vertex` class and no extra initialization values or extractors: one
fresh vertex per item, in input order. -/
def initVerts (items : List α) : List (Vertex α) :=
  items.map (fun item => { item := item, neigbors := [], edges := [] })

/-- Embeds `MatchingGraph.__init__` (lines 191-222): vertex initialization,
`_build_edges`, then `match`; the overridable predicate pipeline is the
`chk` parameter (`default_check` embeds the default hooks).  A constructed
graph is returned only when no phase raises. -/
def MatchingGraph.init (chk : α → α → Bool × Int) (x_set y_set : List α)
    (according_to_x_set : Bool) : Except PyErr (MatchingGraph α) :=
  let b := build_edges according_to_x_set chk (initVerts x_set) (initVerts y_set)
  (matchPhase according_to_x_set b.1 b.2.1).map (fun ms =>
    { x_vertices := b.1
      y_vertices := b.2.1
      edges := b.2.2
      «matches» := ms
      according_to_x_set := according_to_x_set })

/-- Embeds the property named `matched_x_vertices`.  The source defines a
property of this name twice (lines 231-236 and 238-243); the second definition
silently shadows the first, so accessing the attribute runs the second body,
`[edge.vertex_2 for edge in self.matches]`. -/
def MatchingGraph.matched_x_vertices (g : MatchingGraph α) : List α :=
  g.«matches».map (fun e => e.vertex_2)

/-- Embeds attribute access `self.matched_y_vertices`: no attribute of that
name exists on the class (the body meant for it was defined under the name
`matched_x_vertices`, see above), so the access raises `AttributeError`. -/
def MatchingGraph.matched_y_vertices (g : MatchingGraph α) : Except PyErr (List α) :=
  let _ := g
  .error .attributeError

/-- Embeds the property `unmatched_x_vertices` (lines 245-253): the
list comprehension keeps each x-vertex not contained in
`self.matched_x_vertices` (membership via Vertex `__eq__`, item equality). -/
def MatchingGraph.unmatched_x_vertices [DecidableEq α] (g : MatchingGraph α) :
    List (Vertex α) :=
  g.x_vertices.filter (fun v => !(g.matched_x_vertices.contains v.item))

/-- Embeds the property `unmatched_y_vertices` (lines 255-263): the
comprehension iterates `self.y_vertices` and tests membership in
`self.matched_y_vertices`.  When `y_vertices` is empty the membership test is
never evaluated and the result is `[]`; otherwise the first evaluation of
`self.matched_y_vertices` raises `AttributeError`. -/
def MatchingGraph.unmatched_y_vertices (g : MatchingGraph α) :
    Except PyErr (List (Vertex α)) :=
  match g.y_vertices with
  | [] => .ok []
  | _ => .error .attributeError

/-! Specification-level helpers used to state and prove the claims.  These are
derived descriptions of the functions above, connected to them by the
characterization lemmas that follow. -/

/-- `v` extended by appending `ns` to its adjacency list and `es` to its
incident-edge list. -/
def vExtend (v : Vertex α) (ns : List α) (es : List (EdgeData α)) : Vertex α :=
  { v with neigbors := v.neigbors ++ ns, edges := v.edges ++ es }

/-- The edges one x-item gains against a list of y-items. -/
def rowEdges (chk : α → α → Bool × Int) (xi : α) (yItems : List α) :
    List (EdgeData α) :=
  yItems.filterMap (fun yj =>
    if (chk xi yj).1 then some { vertex_1 := xi, vertex_2 := yj, weight := 1 } else none)

/-- The neighbor items one x-item gains against a list of y-items. -/
def rowNbrs (chk : α → α → Bool × Int) (xi : α) (yItems : List α) : List α :=
  yItems.filter (fun yj => (chk xi yj).1)

/-- The edges one y-item gains against a list of x-items. -/
def colEdges (chk : α → α → Bool × Int) (yj : α) (xItems : List α) :
    List (EdgeData α) :=
  xItems.filterMap (fun xi =>
    if (chk xi yj).1 then some { vertex_1 := xi, vertex_2 := yj, weight := 1 } else none)

/-- The neighbor items one y-item gains against a list of x-items. -/
def colNbrs (chk : α → α → Bool × Int) (yj : α) (xItems : List α) : List α :=
  xItems.filter (fun xi => (chk xi yj).1)

/-- The effect of processing one pair on the y-vertex. -/
def oneStepY (chk : α → α → Bool × Int) (xi : α) (vy : Vertex α) : Vertex α :=
  if (chk xi vy.item).1 then
    vExtend vy [xi] [{ vertex_1 := xi, vertex_2 := vy.item, weight := 1 }]
  else vy

/-- The effect of processing one pair on the x-vertex. -/
def oneStepX (chk : α → α → Bool × Int) (yj : α) (vx : Vertex α) : Vertex α :=
  if (chk vx.item yj).1 then
    vExtend vx [yj] [{ vertex_1 := vx.item, vertex_2 := yj, weight := 1 }]
  else vx

/-- The invariant claimed of every vertex: the adjacency and incident-edge
lists stay positionally aligned. -/
abbrev vertexInv (v : Vertex α) : Prop := v.neigbors.length = v.edges.length

/-- The spec's tie-broken maximum-weight edge: first maximal element wins. -/
def specHeaviest (v : Vertex α) : Option (EdgeData α) :=
  v.edges.foldl (fun acc e =>
    match acc with
    | none => some e
    | some b => if b.weight < e.weight then some e else some b) none

/-- The spec sentence for match selection, modelled from its words for
comparison with `matchPhase`: iterate the x-vertices when
`according_to_x_set` is true (the y-vertices when false) in construction
order, appending each vertex's heaviest incident edge when one exists. -/
def specMatchSelection (g : MatchingGraph α) : List (EdgeData α) :=
  (if g.according_to_x_set then g.x_vertices else g.y_vertices).filterMap specHeaviest

/-- All `(x, y)` pairs, x-major, as evaluated by `_build_edges`. -/
def allPairs (xs : List α) (ys : List β) : List (α × β) :=
  (xs.map (fun x => ys.map (fun y => (x, y)))).flatten

/-- The body of `Edge.__eq__` (line 85) with the free name `_get_parallels`
resolved to the method the class itself defines (lines 109-122) — the evident
intent of the code; the shipped comparison instead raises (see `edgeEq`). -/
def edgeEqIntended [DecidableEq α] (self other : EdgeData α) : Bool :=
  let pr := self._get_parallels other
  self.weight == other.weight && (pr.1 || pr.2)

/-- C1: for every two vertices and every caller-supplied weight `w` (including
the default `1`), the constructed edge stores weight `1`: `Edge.__init__`
discards the supplied weight argument. -/
theorem edge_constructor_discards_weight (v1 v2 : Vertex α) (w : Int) :
    (Edge.init v1 v2 w).1.weight = 1 := rfl

/-- C4 (code-bug evaluation): comparing `Edge(A, B, 5)` with `Edge(B, A, 5)`
raises `NameError` — line 84 evaluates the unbound name `_get_parallels` —
instead of returning `True`; the same body with `_get_parallels` resolved to
the method the class defines evaluates to `True`, on this input and on every
reversed pair of constructions with equal weights. -/
theorem edge_eq_nameError_eval :
    edgeEq (Edge.init (⟨0, [], []⟩ : Vertex Nat) ⟨1, [], []⟩ 5).1
        (Edge.init (⟨1, [], []⟩ : Vertex Nat) ⟨0, [], []⟩ 5).1 = .error .nameError
    ∧ edgeEqIntended (Edge.init (⟨0, [], []⟩ : Vertex Nat) ⟨1, [], []⟩ 5).1
        (Edge.init (⟨1, [], []⟩ : Vertex Nat) ⟨0, [], []⟩ 5).1 = true
    ∧ ∀ (α : Type) (inst : DecidableEq α) (A B : Vertex α) (w : Int),
        edgeEqIntended (Edge.init A B w).1 (Edge.init B A w).1 = true := by
  refine ⟨rfl, rfl, ?_⟩
  intro α inst A B w
  simp [edgeEqIntended, EdgeData._get_parallels, Edge.init]

/-- C5: for every vertex with two or more incident edges, evaluating
`heaviest_edge` raises `NameError` (the builtin `max` compares two `Edge`
objects, which resolves the unbound name `_get_parallels`; the property
catches only `ValueError`); `heaviest_edge` returns a value exactly for
vertices with zero or one incident edge. -/
theorem heaviest_edge_two_edges_nameError (v : Vertex α) :
    (2 ≤ v.edges.length → v.heaviest_edge = .error .nameError)
    ∧ ((∃ r, v.heaviest_edge = .ok r) ↔ v.edges.length ≤ 1) := by
  obtain ⟨i, ns, es⟩ := v
  rcases es with _ | ⟨e1, _ | ⟨e2, rest⟩⟩
  · refine ⟨fun h => by simp at h, ?_⟩
    simp [Vertex.heaviest_edge]
  · refine ⟨fun h => by simp at h, ⟨fun _ => by simp, fun _ => ⟨some e1, rfl⟩⟩⟩
  · have hred : Vertex.heaviest_edge ⟨i, ns, e1 :: e2 :: rest⟩ = .error .nameError := rfl
    refine ⟨fun _ => hred, ?_⟩
    rw [hred]
    constructor
    · rintro ⟨r, hr⟩
      exact absurd hr (by simp)
    · intro h
      exfalso
      simp at h

/-- Witness for C5 at a vertex with two incident edges. -/
theorem heaviest_edge_two_edges_nameError_witness :
    (⟨0, [1, 2], [⟨0, 1, 1⟩, ⟨0, 2, 1⟩]⟩ : Vertex Nat).heaviest_edge
      = .error .nameError :=
  (heaviest_edge_two_edges_nameError _).1 (by decide)

/-- C6 (code-bug evaluation): on a vertex with two incident edges
`heaviest_edge` raises `NameError` instead of returning the maximum-weight
edge; on a vertex with no incident edges it does return the no-edge sentinel
without raising, as the claim states. -/
theorem heaviest_edge_bug_eval :
    (⟨5, [6, 7], [⟨5, 6, 1⟩, ⟨5, 7, 1⟩]⟩ : Vertex Nat).heaviest_edge
      = .error .nameError
    ∧ (⟨8, [], []⟩ : Vertex Nat).heaviest_edge = .ok none := ⟨rfl, rfl⟩

/-- C2 (counterexample): at `x_set = [0]`, `y_set = [0, 0]`,
`according_to_x_set = true`, the constructed graph's `matches` has two
elements — the match phase iterated the two y-vertices — while the claim's
predicted selection (iterate `x_vertices` when the flag is true, appending the
heaviest incident edge of each) has one element; the two lists differ. -/
theorem match_selection_side_counterexample :
    (MatchingGraph.init default_check [0] [0, 0] true).map
      (fun g => (g.«matches».length, (specMatchSelection g).length)) = .ok (2, 1)
    ∧ (MatchingGraph.init default_check [0] [0, 0] true).map
      (fun g => decide (g.«matches» = specMatchSelection g)) = .ok false :=
  ⟨rfl, rfl⟩

/-- C3 (counterexample): at `x_set = [1]`, `y_set = [1, 1]` with the default
pipeline, construction with `according_to_x_set = true` succeeds and selects
two matches, while construction with `according_to_x_set = false` raises
`NameError` (the single x-vertex has two incident edges and the match phase
iterates the x side): the two constructions do not produce the same final
matches content. -/
theorem flag_equivalence_counterexample :
    (MatchingGraph.init default_check [1] [1, 1] true).map (fun g => g.«matches»)
      = .ok [⟨1, 1, 1⟩, ⟨1, 1, 1⟩]
    ∧ (MatchingGraph.init default_check [1] [1, 1] false).map (fun g => g.«matches»)
      = .error .nameError := ⟨rfl, rfl⟩

/-- C8 (code-bug evaluation): on the graph built from `x_set = [0]`,
`y_set = [1]` with an all-pairs-match pipeline, `matched_x_vertices` returns
the y-side endpoint `[1]` (the duplicated property definition shadows the
x-side one), `matched_y_vertices` and `unmatched_y_vertices` raise
`AttributeError`, and `unmatched_x_vertices` consequently reports the matched
x-vertex as unmatched. -/
theorem output_surface_bug_eval :
    (MatchingGraph.init constTrueCheck [0] [1] true).map
      (fun g => (g.matched_x_vertices, g.matched_y_vertices,
                 g.unmatched_x_vertices, g.unmatched_y_vertices))
      = .ok ([1], .error .attributeError,
             [⟨0, [1], [⟨0, 1, 1⟩]⟩], .error .attributeError) := rfl

/-! Helper lemmas.  These connect the executable embedding to the
specification-level helpers; the claim theorems below build on them. -/

theorem vExtend_item (v : Vertex α) (ns : List α) (es : List (EdgeData α)) :
    (vExtend v ns es).item = v.item := rfl

theorem vExtend_nil (v : Vertex α) : vExtend v [] [] = v := by
  simp [vExtend]

theorem vExtend_vExtend (v : Vertex α) (a c : List α) (b d : List (EdgeData α)) :
    vExtend (vExtend v a b) c d = vExtend v (a ++ c) (b ++ d) := by
  simp [vExtend, List.append_assoc]

theorem oneStepY_item (chk : α → α → Bool × Int) (xi : α) (vy : Vertex α) :
    (oneStepY chk xi vy).item = vy.item := by
  unfold oneStepY
  split <;> rfl

theorem oneStepX_item (chk : α → α → Bool × Int) (yj : α) (vx : Vertex α) :
    (oneStepX chk yj vx).item = vx.item := by
  unfold oneStepX
  split <;> rfl

theorem heaviest_edge_error_of_two (v : Vertex α) (h : 2 ≤ v.edges.length) :
    v.heaviest_edge = .error .nameError := by
  obtain ⟨i, ns, es⟩ := v
  rcases es with _ | ⟨e1, _ | ⟨e2, rest⟩⟩
  · simp at h
  · simp at h
  · rfl

theorem heaviest_edge_of_le_one (v : Vertex α) (h : v.edges.length ≤ 1) :
    v.heaviest_edge = .ok v.edges.head? := by
  obtain ⟨i, ns, es⟩ := v
  rcases es with _ | ⟨e1, _ | ⟨e2, rest⟩⟩
  · rfl
  · rfl
  · simp at h

theorem evaluate_match_of_le_one (ms : List (EdgeData α)) (v : Vertex α)
    (h : v.edges.length ≤ 1) :
    evaluate_match ms v = .ok (ms ++ v.edges.head?.toList) := by
  rw [evaluate_match, heaviest_edge_of_le_one v h]
  cases hh : v.edges.head? <;> simp

theorem evaluate_match_error_of_two (ms : List (EdgeData α)) (v : Vertex α)
    (h : 2 ≤ v.edges.length) :
    evaluate_match ms v = .error .nameError := by
  rw [evaluate_match, heaviest_edge_error_of_two v h]

theorem matchLoop_ok (vs : List (Vertex α)) (acc : List (EdgeData α))
    (h : ∀ v ∈ vs, v.edges.length ≤ 1) :
    matchLoop vs acc = .ok (acc ++ vs.filterMap (fun v => v.edges.head?)) := by
  induction vs generalizing acc with
  | nil => simp [matchLoop]
  | cons v vs ih =>
      have hv := h v (List.mem_cons_self v vs)
      have step : matchLoop (v :: vs) acc
          = matchLoop vs (acc ++ v.edges.head?.toList) := by
        simp only [matchLoop, evaluate_match_of_le_one _ _ hv]
      rw [step, ih _ (fun w hw => h w (List.mem_cons_of_mem v hw))]
      cases hh : v.edges.head? <;> simp [hh, List.append_assoc]

theorem matchLoop_error (vs : List (Vertex α)) :
    ∀ (acc : List (EdgeData α)) (v : Vertex α), v ∈ vs → 2 ≤ v.edges.length →
      matchLoop vs acc = .error .nameError := by
  induction vs with
  | nil =>
      intro acc v hv h2
      simp at hv
  | cons w vs ih =>
      intro acc v hv h2
      by_cases hw : w.edges.length ≤ 1
      · have step : matchLoop (w :: vs) acc
            = matchLoop vs (acc ++ w.edges.head?.toList) := by
          simp only [matchLoop, evaluate_match_of_le_one _ _ hw]
        rcases List.mem_cons.mp hv with rfl | hv2
        · omega
        · rw [step]
          exact ih _ v hv2 h2
      · simp only [matchLoop, evaluate_match_error_of_two acc w (by omega)]

theorem matchLoop_ok_inv (vs : List (Vertex α)) (acc ms : List (EdgeData α))
    (h : matchLoop vs acc = .ok ms) :
    (∀ v ∈ vs, v.edges.length ≤ 1)
    ∧ ms = acc ++ vs.filterMap (fun v => v.edges.head?) := by
  have hdeg : ∀ v ∈ vs, v.edges.length ≤ 1 := by
    intro v hv
    by_contra hle
    rw [matchLoop_error vs acc v hv (by omega)] at h
    exact absurd h (by simp)
  refine ⟨hdeg, ?_⟩
  rw [matchLoop_ok vs acc hdeg] at h
  exact (Except.ok.inj h).symm

theorem filterMap_head?_eq_flatten (vs : List (Vertex α))
    (h : ∀ v ∈ vs, v.edges.length ≤ 1) :
    vs.filterMap (fun v => v.edges.head?)
      = (vs.map (fun v => v.edges)).flatten := by
  induction vs with
  | nil => simp
  | cons v vs ih =>
      have hv := h v (List.mem_cons_self v vs)
      have ihh := ih (fun w hw => h w (List.mem_cons_of_mem v hw))
      rcases hes : v.edges with _ | ⟨e, _ | ⟨e2, rest⟩⟩
      · simp [hes, ihh]
      · simp [hes, ihh]
      · rw [hes] at hv
        simp at hv

theorem add_neighbor_eq_vExtend (self other : Vertex α) (e : EdgeData α) :
    self.add_neighbor other e = vExtend self [other.item] [e] := rfl

theorem vExtend_fresh (i : α) (ns : List α) (es : List (EdgeData α)) :
    vExtend ⟨i, [], []⟩ ns es = ⟨i, ns, es⟩ := by
  simp [vExtend]

theorem map_item_oneStepY (chk : α → α → Bool × Int) (xi : α)
    (ys : List (Vertex α)) :
    (ys.map (oneStepY chk xi)).map Vertex.item = ys.map Vertex.item := by
  simp [List.map_map, Function.comp, oneStepY_item]

theorem map_item_oneStepX (chk : α → α → Bool × Int) (yj : α)
    (xs : List (Vertex α)) :
    (xs.map (oneStepX chk yj)).map Vertex.item = xs.map Vertex.item := by
  simp [List.map_map, Function.comp, oneStepX_item]

theorem colStep (chk : α → α → Bool × Int) (xi : α) (xItems : List α)
    (v : Vertex α) :
    vExtend (oneStepY chk xi v) (colNbrs chk (oneStepY chk xi v).item xItems)
        (colEdges chk (oneStepY chk xi v).item xItems)
      = vExtend v (colNbrs chk v.item (xi :: xItems))
          (colEdges chk v.item (xi :: xItems)) := by
  rw [oneStepY_item]
  unfold oneStepY
  cases hc : (chk xi v.item).1 <;>
    simp [hc, colNbrs, colEdges, vExtend_vExtend, List.filter_cons, List.filterMap_cons]

theorem rowStep (chk : α → α → Bool × Int) (yj : α) (yItems : List α)
    (v : Vertex α) :
    vExtend (oneStepX chk yj v) (rowNbrs chk (oneStepX chk yj v).item yItems)
        (rowEdges chk (oneStepX chk yj v).item yItems)
      = vExtend v (rowNbrs chk v.item (yj :: yItems))
          (rowEdges chk v.item (yj :: yItems)) := by
  rw [oneStepX_item]
  unfold oneStepX
  cases hc : (chk v.item yj).1 <;>
    simp [hc, rowNbrs, rowEdges, vExtend_vExtend, List.filter_cons, List.filterMap_cons]

theorem buildRow_eq (chk : α → α → Bool × Int) (ys : List (Vertex α)) :
    ∀ vx : Vertex α,
      buildRow chk vx ys =
        (vExtend vx (rowNbrs chk vx.item (ys.map Vertex.item))
            (rowEdges chk vx.item (ys.map Vertex.item)),
         ys.map (oneStepY chk vx.item),
         rowEdges chk vx.item (ys.map Vertex.item)) := by
  induction ys with
  | nil =>
      intro vx
      simp [buildRow, rowNbrs, rowEdges, vExtend_nil]
  | cons vy ys ih =>
      intro vx
      cases hc : (chk vx.item vy.item).1 with
      | true =>
          simp only [buildRow, hc, if_true, Edge.init, add_neighbor_eq_vExtend, ih,
            vExtend_item, vExtend_vExtend, Prod.mk.injEq]
          refine ⟨?_, ?_, ?_⟩
          · simp [rowNbrs, rowEdges, hc, List.filter_cons, List.filterMap_cons]
          · simp [oneStepY, hc, List.map_cons]
          · simp [rowEdges, hc, List.filterMap_cons]
      | false =>
          simp [buildRow, hc, ih, oneStepY, rowNbrs, rowEdges,
            List.filter_cons, List.filterMap_cons]

theorem buildCol_eq (chk : α → α → Bool × Int) (xs : List (Vertex α)) :
    ∀ vy : Vertex α,
      buildCol chk vy xs =
        (vExtend vy (colNbrs chk vy.item (xs.map Vertex.item))
            (colEdges chk vy.item (xs.map Vertex.item)),
         xs.map (oneStepX chk vy.item),
         colEdges chk vy.item (xs.map Vertex.item)) := by
  induction xs with
  | nil =>
      intro vy
      simp [buildCol, colNbrs, colEdges, vExtend_nil]
  | cons vx xs ih =>
      intro vy
      cases hc : (chk vx.item vy.item).1 with
      | true =>
          simp only [buildCol, hc, if_true, Edge.init, add_neighbor_eq_vExtend, ih,
            vExtend_item, vExtend_vExtend, Prod.mk.injEq]
          refine ⟨?_, ?_, ?_⟩
          · simp [colNbrs, colEdges, hc, List.filter_cons, List.filterMap_cons]
          · simp [oneStepX, hc, List.map_cons]
          · simp [colEdges, hc, List.filterMap_cons]
      | false =>
          simp [buildCol, hc, ih, oneStepX, colNbrs, colEdges,
            List.filter_cons, List.filterMap_cons]

theorem buildTrue_eq (chk : α → α → Bool × Int) (xvs : List (Vertex α)) :
    ∀ yvs : List (Vertex α),
      buildTrue chk xvs yvs =
        (xvs.map (fun v => vExtend v (rowNbrs chk v.item (yvs.map Vertex.item))
            (rowEdges chk v.item (yvs.map Vertex.item))),
         yvs.map (fun v => vExtend v (colNbrs chk v.item (xvs.map Vertex.item))
            (colEdges chk v.item (xvs.map Vertex.item))),
         (xvs.map (fun v => rowEdges chk v.item (yvs.map Vertex.item))).flatten) := by
  induction xvs with
  | nil =>
      intro yvs
      simp [buildTrue, colNbrs, colEdges, vExtend_nil]
  | cons vx xs ih =>
      intro yvs
      simp only [buildTrue, buildRow_eq, ih, map_item_oneStepY, Prod.mk.injEq,
        List.map_cons, List.flatten_cons, true_and, and_true]
      rw [List.map_map]
      exact List.map_congr_left (fun v hv => colStep chk vx.item (xs.map Vertex.item) v)

theorem buildFalse_eq (chk : α → α → Bool × Int) (yvs : List (Vertex α)) :
    ∀ xvs : List (Vertex α),
      buildFalse chk xvs yvs =
        (xvs.map (fun v => vExtend v (rowNbrs chk v.item (yvs.map Vertex.item))
            (rowEdges chk v.item (yvs.map Vertex.item))),
         yvs.map (fun v => vExtend v (colNbrs chk v.item (xvs.map Vertex.item))
            (colEdges chk v.item (xvs.map Vertex.item))),
         (yvs.map (fun v => colEdges chk v.item (xvs.map Vertex.item))).flatten) := by
  induction yvs with
  | nil =>
      intro xvs
      simp [buildFalse, rowNbrs, rowEdges, vExtend_nil]
  | cons vy ys ih =>
      intro xvs
      simp only [buildFalse, buildCol_eq, ih, map_item_oneStepX, Prod.mk.injEq,
        List.map_cons, List.flatten_cons, true_and, and_true]
      rw [List.map_map]
      exact List.map_congr_left (fun v hv => rowStep chk vy.item (ys.map Vertex.item) v)

theorem map_item_initVerts (items : List α) :
    (initVerts items).map Vertex.item = items := by
  induction items with
  | nil => rfl
  | cons a l ih => simpa [initVerts] using ih

/-- Characterization of `_build_edges` on freshly initialized vertices:
each x-vertex ends with exactly its row of matching neighbors and edges, each
y-vertex with its column, and the global edge list is the x-major
concatenation of rows when `according_to_x_set` is true, the y-major
concatenation of columns when it is false. -/
theorem build_edges_char (flag : Bool) (chk : α → α → Bool × Int)
    (xs ys : List α) :
    build_edges flag chk (initVerts xs) (initVerts ys) =
      (xs.map (fun xi => ⟨xi, rowNbrs chk xi ys, rowEdges chk xi ys⟩),
       ys.map (fun yj => ⟨yj, colNbrs chk yj xs, colEdges chk yj xs⟩),
       if flag then (xs.map (fun xi => rowEdges chk xi ys)).flatten
       else (ys.map (fun yj => colEdges chk yj xs)).flatten) := by
  cases flag with
  | true =>
      simp only [build_edges, if_true, buildTrue_eq, map_item_initVerts,
        Prod.mk.injEq]
      simp [initVerts, List.map_map, Function.comp_def, vExtend_fresh]
  | false =>
      simp only [build_edges, if_false, buildFalse_eq, map_item_initVerts,
        Prod.mk.injEq]
      simp [initVerts, List.map_map, Function.comp_def, vExtend_fresh]

theorem init_ok_fields (chk : α → α → Bool × Int) (xs ys : List α) (flag : Bool)
    (g : MatchingGraph α) (h : MatchingGraph.init chk xs ys flag = .ok g) :
    g.x_vertices = (build_edges flag chk (initVerts xs) (initVerts ys)).1
    ∧ g.y_vertices = (build_edges flag chk (initVerts xs) (initVerts ys)).2.1
    ∧ g.edges = (build_edges flag chk (initVerts xs) (initVerts ys)).2.2
    ∧ g.according_to_x_set = flag
    ∧ matchLoop (if flag then (build_edges flag chk (initVerts xs) (initVerts ys)).2.1
        else (build_edges flag chk (initVerts xs) (initVerts ys)).1) []
        = .ok g.«matches» := by
  simp only [MatchingGraph.init, matchPhase] at h
  cases hml : matchLoop (if flag then (build_edges flag chk (initVerts xs) (initVerts ys)).2.1
      else (build_edges flag chk (initVerts xs) (initVerts ys)).1) [] with
  | error e =>
      rw [hml] at h
      exact absurd h (by simp [Except.map])
  | ok ms =>
      rw [hml] at h
      have hg := Except.ok.inj h
      subst hg
      exact ⟨rfl, rfl, rfl, rfl, rfl⟩

theorem init_error_of_matchLoop (chk : α → α → Bool × Int) (xs ys : List α)
    (flag : Bool) (e : PyErr)
    (h : matchLoop (if flag then (build_edges flag chk (initVerts xs) (initVerts ys)).2.1
        else (build_edges flag chk (initVerts xs) (initVerts ys)).1) [] = .error e) :
    MatchingGraph.init chk xs ys flag = .error e := by
  simp only [MatchingGraph.init, matchPhase]
  rw [h]
  rfl

theorem filterMap_cons_toList (f : β → Option γ) (b : β) (l : List β) :
    (b :: l).filterMap f = (f b).toList ++ l.filterMap f := by
  cases h : f b <;> simp [List.filterMap_cons, h]

theorem perm_shift (a b c : List γ) : (a ++ (b ++ c)).Perm (b ++ (a ++ c)) := by
  have h1 : a ++ (b ++ c) = (a ++ b) ++ c := (List.append_assoc a b c).symm
  have h2 : ((a ++ b) ++ c).Perm ((b ++ a) ++ c) :=
    (List.perm_append_comm).append_right c
  have h3 : (b ++ a) ++ c = b ++ (a ++ c) := List.append_assoc b a c
  rw [h1, ← h3]
  exact h2

theorem flatten_optHead_perm (f : β → Option γ) (g : β → List γ) (l : List β) :
    ((l.map (fun b => (f b).toList ++ g b)).flatten).Perm
      (l.filterMap f ++ (l.map g).flatten) := by
  induction l with
  | nil => simp
  | cons b l ih =>
      simp only [List.map_cons, List.flatten_cons, filterMap_cons_toList,
        List.append_assoc]
      refine List.Perm.append_left (f b).toList ?_
      have ha : (g b ++ (l.map (fun b => (f b).toList ++ g b)).flatten).Perm
          (g b ++ (l.filterMap f ++ (l.map g).flatten)) :=
        List.Perm.append_left (g b) ih
      exact ha.trans (perm_shift (g b) (l.filterMap f) ((l.map g).flatten))

theorem colEdges_cons (chk : α → α → Bool × Int) (yj x : α) (xs : List α) :
    colEdges chk yj (x :: xs)
      = (if (chk x yj).1 then some ⟨x, yj, 1⟩ else none).toList
          ++ colEdges chk yj xs := by
  rw [colEdges, filterMap_cons_toList]
  rfl

/-- The x-major concatenation of matching rows and the y-major concatenation
of matching columns enumerate the same edges, up to order. -/
theorem rowEdges_colEdges_perm (chk : α → α → Bool × Int) (xs ys : List α) :
    ((xs.map (fun xi => rowEdges chk xi ys)).flatten).Perm
      ((ys.map (fun yj => colEdges chk yj xs)).flatten) := by
  induction xs with
  | nil =>
      have h : ys.map (fun yj => colEdges chk yj ([] : List α))
          = ys.map (fun _ => ([] : List (EdgeData α))) := by
        simp [colEdges]
      simp [h, List.flatten_eq_nil_iff]
  | cons x xs ih =>
      have h1 : ys.map (fun yj => colEdges chk yj (x :: xs))
          = ys.map (fun yj =>
              (if (chk x yj).1 then some (⟨x, yj, 1⟩ : EdgeData α) else none).toList
              ++ colEdges chk yj xs) :=
        List.map_congr_left (fun yj _ => colEdges_cons chk yj x xs)
      have h2 := flatten_optHead_perm
        (fun yj => if (chk x yj).1 then some (⟨x, yj, 1⟩ : EdgeData α) else none)
        (fun yj => colEdges chk yj xs) ys
      simp only [List.map_cons, List.flatten_cons, h1]
      have ha : (rowEdges chk x ys
            ++ (xs.map (fun xi => rowEdges chk xi ys)).flatten).Perm
          (rowEdges chk x ys
            ++ (ys.map (fun yj => colEdges chk yj xs)).flatten) :=
        List.Perm.append_left _ ih
      exact ha.trans h2.symm

theorem rowEdges_length (chk : α → α → Bool × Int) (xi : α) (ys : List α) :
    (rowEdges chk xi ys).length = ys.countP (fun yj => (chk xi yj).1) := by
  induction ys with
  | nil => rfl
  | cons y ys ih =>
      simp only [rowEdges] at ih
      cases hc : (chk xi y).1 <;>
        simp [rowEdges, List.filterMap_cons, hc, List.countP_cons, ih]

theorem colEdges_length (chk : α → α → Bool × Int) (yj : α) (xs : List α) :
    (colEdges chk yj xs).length = xs.countP (fun xi => (chk xi yj).1) := by
  induction xs with
  | nil => rfl
  | cons x xs ih =>
      simp only [colEdges] at ih
      cases hc : (chk x yj).1 <;>
        simp [colEdges, List.filterMap_cons, hc, List.countP_cons, ih]

theorem rowNbrs_length (chk : α → α → Bool × Int) (xi : α) (ys : List α) :
    (rowNbrs chk xi ys).length = ys.countP (fun yj => (chk xi yj).1) := by
  simp [rowNbrs, List.countP_eq_length_filter]

theorem colNbrs_length (chk : α → α → Bool × Int) (yj : α) (xs : List α) :
    (colNbrs chk yj xs).length = xs.countP (fun xi => (chk xi yj).1) := by
  simp [colNbrs, List.countP_eq_length_filter]

theorem sum_map_add_nat (f g : β → Nat) (l : List β) :
    (l.map (fun b => f b + g b)).sum = (l.map f).sum + (l.map g).sum := by
  induction l with
  | nil => rfl
  | cons b l ih =>
      simp [ih]
      omega

theorem sum_map_ite_one (q : β → Bool) (l : List β) :
    (l.map (fun b => if q b then (1 : Nat) else 0)).sum = l.countP q := by
  induction l with
  | nil => rfl
  | cons b l ih =>
      cases hb : q b <;> simp [List.countP_cons, hb, ih] <;> omega

theorem sum_countP_comm (p : α → β → Bool) (xs : List α) (ys : List β) :
    (xs.map (fun x => ys.countP (fun y => p x y))).sum
      = (ys.map (fun y => xs.countP (fun x => p x y))).sum := by
  induction xs with
  | nil => simp
  | cons x xs ih =>
      have hsplit : ys.map (fun y => xs.countP (fun x => p x y)
            + (if p x y then 1 else 0))
          = ys.map (fun y => (fun y => xs.countP (fun x => p x y)) y
            + (fun y => if p x y then (1 : Nat) else 0) y) := rfl
      simp only [List.map_cons, List.sum_cons, List.countP_cons, hsplit,
        sum_map_add_nat, sum_map_ite_one, ih]
      rw [show List.countP (p x) ys = List.countP (fun y => p x y) ys from rfl]
      omega

theorem countP_allPairs (q : α → β → Bool) (xs : List α) (ys : List β) :
    (allPairs xs ys).countP (fun pr => q pr.1 pr.2)
      = (xs.map (fun x => ys.countP (fun y => q x y))).sum := by
  induction xs with
  | nil => rfl
  | cons x xs ih =>
      simp only [allPairs, List.map_cons, List.flatten_cons, List.countP_append,
        List.sum_cons]
      rw [List.countP_map]
      have : (fun pr => q (Prod.fst pr) (Prod.snd pr)) ∘ (fun y => (x, y))
          = fun y => q x y := rfl
      rw [this]
      exact congrArg (ys.countP (fun y => q x y) + ·) ih

theorem default_check_fst [DecidableEq α] (x y : α) :
    (default_check x y).1 = (x == y) := by
  simp [default_check]

/-- C2 (amended): the match phase iterates the y-vertices when
`according_to_x_set` is true and the x-vertices when it is false — line 460
indexes `[x_vertices, y_vertices]` with the flag — in construction order; on
every successfully constructed graph each iterated vertex has at most one
incident edge and contributes exactly that edge (nothing when it has none),
and whenever an iterated vertex has two or more incident edges the
heaviest-edge computation raises `NameError`, so construction fails. -/
theorem match_selection_amended (chk : α → α → Bool × Int)
    (x_set y_set : List α) (flag : Bool) :
    (∀ g : MatchingGraph α, MatchingGraph.init chk x_set y_set flag = .ok g →
        g.«matches» = (if flag then g.y_vertices else g.x_vertices).filterMap
            (fun v => v.edges.head?)
        ∧ ∀ v ∈ (if flag then g.y_vertices else g.x_vertices), v.edges.length ≤ 1)
    ∧ (∀ v ∈ (if flag then (build_edges flag chk (initVerts x_set) (initVerts y_set)).2.1
          else (build_edges flag chk (initVerts x_set) (initVerts y_set)).1),
        2 ≤ v.edges.length →
          MatchingGraph.init chk x_set y_set flag = .error .nameError) := by
  constructor
  · intro g hg
    obtain ⟨hxv, hyv, hev, hfl, hml⟩ := init_ok_fields chk x_set y_set flag g hg
    obtain ⟨hdeg, hms⟩ := matchLoop_ok_inv _ _ _ hml
    have hside : (if flag then g.y_vertices else g.x_vertices)
        = (if flag then (build_edges flag chk (initVerts x_set) (initVerts y_set)).2.1
           else (build_edges flag chk (initVerts x_set) (initVerts y_set)).1) := by
      rw [hxv, hyv]
    constructor
    · rw [hside]
      simpa using hms
    · rw [hside]
      exact hdeg
  · intro v hv h2
    exact init_error_of_matchLoop chk x_set y_set flag .nameError
      (matchLoop_error _ [] v hv h2)

/-- Witness for C2's amended theorem on the graph built from `[3]`, `[3]`. -/
theorem match_selection_amended_witness :
    (⟨[⟨3, [3], [⟨3, 3, 1⟩]⟩], [⟨3, [3], [⟨3, 3, 1⟩]⟩], [⟨3, 3, 1⟩],
        [⟨3, 3, 1⟩], true⟩ : MatchingGraph Nat).«matches» = [⟨3, 3, 1⟩] :=
  (((match_selection_amended default_check [3] [3] true).1
      ⟨[⟨3, [3], [⟨3, 3, 1⟩]⟩], [⟨3, [3], [⟨3, 3, 1⟩]⟩], [⟨3, 3, 1⟩],
        [⟨3, 3, 1⟩], true⟩ (by rfl)).1).trans (by decide)

/-- C3 (amended): for one pair of input sets and one predicate configuration,
whenever construction succeeds under both values of `according_to_x_set`, the
two graphs' `matches` lists contain the same edges up to order (the flag still
changes which side is iterated, hence the order, and when a vertex on an
iterated side has two or more incident edges construction raises `NameError`
under that flag while the other flag may succeed with different content). -/
theorem flag_equivalence_amended (chk : α → α → Bool × Int)
    (x_set y_set : List α) (g1 g2 : MatchingGraph α)
    (h1 : MatchingGraph.init chk x_set y_set true = .ok g1)
    (h2 : MatchingGraph.init chk x_set y_set false = .ok g2) :
    g1.«matches».Perm g2.«matches» := by
  obtain ⟨hx1, hy1, he1, hf1, hml1⟩ := init_ok_fields chk x_set y_set true g1 h1
  obtain ⟨hx2, hy2, he2, hf2, hml2⟩ := init_ok_fields chk x_set y_set false g2 h2
  simp only [build_edges_char, if_true] at hml1
  simp only [build_edges_char, Bool.false_eq_true, if_false] at hml2
  obtain ⟨hdeg1, hms1⟩ := matchLoop_ok_inv _ _ _ hml1
  obtain ⟨hdeg2, hms2⟩ := matchLoop_ok_inv _ _ _ hml2
  rw [hms1, hms2, List.nil_append, List.nil_append,
    filterMap_head?_eq_flatten _ hdeg1, filterMap_head?_eq_flatten _ hdeg2,
    List.map_map, List.map_map]
  exact (rowEdges_colEdges_perm chk x_set y_set).symm

/-- Witness for C3's amended theorem: `[0, 1]` against `[1, 0]` succeeds under
both flags, giving the same two matches in opposite orders. -/
theorem flag_equivalence_amended_witness :
    (⟨[⟨0, [0], [⟨0, 0, 1⟩]⟩, ⟨1, [1], [⟨1, 1, 1⟩]⟩],
      [⟨1, [1], [⟨1, 1, 1⟩]⟩, ⟨0, [0], [⟨0, 0, 1⟩]⟩],
      [⟨0, 0, 1⟩, ⟨1, 1, 1⟩], [⟨1, 1, 1⟩, ⟨0, 0, 1⟩], true⟩
        : MatchingGraph Nat).«matches».Perm
    (⟨[⟨0, [0], [⟨0, 0, 1⟩]⟩, ⟨1, [1], [⟨1, 1, 1⟩]⟩],
      [⟨1, [1], [⟨1, 1, 1⟩]⟩, ⟨0, [0], [⟨0, 0, 1⟩]⟩],
      [⟨1, 1, 1⟩, ⟨0, 0, 1⟩], [⟨0, 0, 1⟩, ⟨1, 1, 1⟩], false⟩
        : MatchingGraph Nat).«matches» :=
  flag_equivalence_amended default_check [0, 1] [1, 0]
    ⟨[⟨0, [0], [⟨0, 0, 1⟩]⟩, ⟨1, [1], [⟨1, 1, 1⟩]⟩],
      [⟨1, [1], [⟨1, 1, 1⟩]⟩, ⟨0, [0], [⟨0, 0, 1⟩]⟩],
      [⟨0, 0, 1⟩, ⟨1, 1, 1⟩], [⟨1, 1, 1⟩, ⟨0, 0, 1⟩], true⟩
    ⟨[⟨0, [0], [⟨0, 0, 1⟩]⟩, ⟨1, [1], [⟨1, 1, 1⟩]⟩],
      [⟨1, [1], [⟨1, 1, 1⟩]⟩, ⟨0, [0], [⟨0, 0, 1⟩]⟩],
      [⟨1, 1, 1⟩, ⟨0, 0, 1⟩], [⟨0, 0, 1⟩, ⟨1, 1, 1⟩], false⟩
    (by rfl) (by rfl)

/-- C7: for all non-empty `x_set` and `y_set` under the default predicate
pipeline (and either flag value), the number of edges produced by
`_build_edges` equals the number of `(x, y)` pairs for which `assess_match`
returns true, which by default is the number of pairs with equal value
conditions; a successfully constructed graph's `edges` collection has that
same length. -/
theorem edge_count_default [DecidableEq α] (x_set y_set : List α) (flag : Bool)
    (hx : x_set ≠ []) (hy : y_set ≠ []) :
    (build_edges flag default_check (initVerts x_set) (initVerts y_set)).2.2.length
      = (allPairs x_set y_set).countP (fun pr => (default_check pr.1 pr.2).1)
    ∧ (allPairs x_set y_set).countP (fun pr => (default_check pr.1 pr.2).1)
      = (allPairs x_set y_set).countP (fun pr => pr.1 == pr.2)
    ∧ ∀ g : MatchingGraph α,
        MatchingGraph.init default_check x_set y_set flag = .ok g →
        g.edges.length
          = (allPairs x_set y_set).countP (fun pr => (default_check pr.1 pr.2).1) := by
  have hcount : (build_edges flag default_check (initVerts x_set)
        (initVerts y_set)).2.2.length
      = (allPairs x_set y_set).countP (fun pr => (default_check pr.1 pr.2).1) := by
    rw [build_edges_char,
      countP_allPairs (fun x y => (default_check x y).1) x_set y_set]
    cases flag with
    | true =>
        simp only [if_true, List.length_flatten, List.map_map]
        have hrow : List.length ∘ (fun xi => rowEdges default_check xi y_set)
            = fun xi => y_set.countP (fun yj => (default_check xi yj).1) :=
          funext fun xi => rowEdges_length default_check xi y_set
        rw [hrow]
    | false =>
        simp only [Bool.false_eq_true, if_false, List.length_flatten, List.map_map]
        have hcol : List.length ∘ (fun yj => colEdges default_check yj x_set)
            = fun yj => x_set.countP (fun xi => (default_check xi yj).1) :=
          funext fun yj => colEdges_length default_check yj x_set
        rw [hcol]
        exact (sum_countP_comm (fun x y => (default_check x y).1) x_set y_set).symm
  refine ⟨hcount, ?_, ?_⟩
  · have hfun : (fun pr : α × α => (default_check pr.1 pr.2).1)
        = fun pr : α × α => pr.1 == pr.2 :=
      funext fun pr => default_check_fst pr.1 pr.2
    rw [hfun]
  · intro g hg
    obtain ⟨_, _, hev, _, _⟩ := init_ok_fields _ _ _ _ g hg
    rw [hev]
    exact hcount

/-- Witness for C7 at `x_set = [1, 2]`, `y_set = [2, 3]`: one matching pair. -/
theorem edge_count_default_witness :
    (build_edges true default_check (initVerts [1, 2])
        (initVerts ([2, 3] : List Nat))).2.2.length
      = (allPairs [1, 2] [2, 3]).countP (fun pr => (default_check pr.1 pr.2).1) :=
  (edge_count_default [1, 2] [2, 3] true (by decide) (by decide)).1

/-- C9: constructing one Edge registers it symmetrically on both endpoints via
`add_neighbor` — appending the opposite vertex's item to each endpoint's
`neigbors` and the edge to each endpoint's `edges` — preserving the invariant
`len(neigbors) == len(edges)` on both endpoints; consequently every vertex of
every successfully constructed graph satisfies the invariant. -/
theorem edge_registration_invariant :
    (∀ (α : Type) (v1 v2 : Vertex α) (w : Int),
        (Edge.init v1 v2 w).2.1.neigbors = v1.neigbors ++ [v2.item]
        ∧ (Edge.init v1 v2 w).2.1.edges = v1.edges ++ [(Edge.init v1 v2 w).1]
        ∧ (Edge.init v1 v2 w).2.2.neigbors = v2.neigbors ++ [v1.item]
        ∧ (Edge.init v1 v2 w).2.2.edges = v2.edges ++ [(Edge.init v1 v2 w).1]
        ∧ (vertexInv v1 → vertexInv (Edge.init v1 v2 w).2.1)
        ∧ (vertexInv v2 → vertexInv (Edge.init v1 v2 w).2.2))
    ∧ (∀ (α : Type) (chk : α → α → Bool × Int) (xs ys : List α) (flag : Bool)
          (g : MatchingGraph α), MatchingGraph.init chk xs ys flag = .ok g →
        (∀ v ∈ g.x_vertices, vertexInv v) ∧ ∀ v ∈ g.y_vertices, vertexInv v) := by
  constructor
  · intro α v1 v2 w
    refine ⟨rfl, rfl, rfl, rfl, ?_, ?_⟩ <;>
      · intro h
        simp only [vertexInv, Edge.init, Vertex.add_neighbor,
          List.length_append, List.length_cons, List.length_nil] at h ⊢
        omega
  · intro α chk xs ys flag g hg
    obtain ⟨hxv, hyv, _, _, _⟩ := init_ok_fields chk xs ys flag g hg
    rw [build_edges_char] at hxv hyv
    simp only at hxv hyv
    constructor
    · intro v hv
      rw [hxv] at hv
      obtain ⟨xi, hxi, rfl⟩ := List.mem_map.mp hv
      show (rowNbrs chk xi ys).length = (rowEdges chk xi ys).length
      rw [rowNbrs_length, rowEdges_length]
    · intro v hv
      rw [hyv] at hv
      obtain ⟨yj, hyj, rfl⟩ := List.mem_map.mp hv
      show (colNbrs chk yj xs).length = (colEdges chk yj xs).length
      rw [colNbrs_length, colEdges_length]

/-- Witness for C9: the invariant after one Edge construction, and on a vertex
of a constructed graph. -/
theorem edge_registration_invariant_witness :
    vertexInv (Edge.init (⟨0, [], []⟩ : Vertex Nat) ⟨1, [], []⟩ 5).2.1
    ∧ vertexInv (⟨0, [0], [⟨0, 0, 1⟩]⟩ : Vertex Nat) :=
  ⟨(edge_registration_invariant.1 Nat ⟨0, [], []⟩ ⟨1, [], []⟩ 5).2.2.2.2.1 (by decide),
   (edge_registration_invariant.2 Nat default_check [0] [0] true
      ⟨[⟨0, [0], [⟨0, 0, 1⟩]⟩], [⟨0, [0], [⟨0, 0, 1⟩]⟩], [⟨0, 0, 1⟩],
        [⟨0, 0, 1⟩], true⟩ (by rfl)).1 ⟨0, [0], [⟨0, 0, 1⟩]⟩ (by decide)⟩

theorem mem_of_head?_eq (l : List γ) (e : γ) (h : l.head? = some e) : e ∈ l := by
  cases l with
  | nil => simp at h
  | cons a t =>
      simp only [List.head?_cons, Option.some.injEq] at h
      rw [← h]
      exact List.mem_cons_self a t

/-- C10: on every successfully constructed graph (any inputs, any predicate
configuration, either flag), every edge in the `matches` collection is also
present in the `edges` collection. -/
theorem matches_subset_edges (chk : α → α → Bool × Int) (x_set y_set : List α)
    (flag : Bool) (g : MatchingGraph α)
    (h : MatchingGraph.init chk x_set y_set flag = .ok g) :
    ∀ e ∈ g.«matches», e ∈ g.edges := by
  intro e he
  obtain ⟨hxv, hyv, hev, hfl, hml⟩ := init_ok_fields chk x_set y_set flag g h
  obtain ⟨hdeg, hms⟩ := matchLoop_ok_inv _ _ _ hml
  rw [hms, List.nil_append] at he
  obtain ⟨v, hv, hhead⟩ := List.mem_filterMap.mp he
  have hevv : e ∈ v.edges := mem_of_head?_eq _ _ hhead
  rw [hev, build_edges_char]
  rw [build_edges_char] at hv
  cases flag with
  | true =>
      simp only [if_true] at hv ⊢
      obtain ⟨yj, hyj, rfl⟩ := List.mem_map.mp hv
      have hmem : e ∈ (y_set.map (fun yj => colEdges chk yj x_set)).flatten :=
        List.mem_flatten.mpr ⟨colEdges chk yj x_set, List.mem_map.mpr ⟨yj, hyj, rfl⟩, hevv⟩
      exact (rowEdges_colEdges_perm chk x_set y_set).mem_iff.mpr hmem
  | false =>
      simp only [Bool.false_eq_true, if_false] at hv ⊢
      obtain ⟨xi, hxi, rfl⟩ := List.mem_map.mp hv
      have hmem : e ∈ (x_set.map (fun xi => rowEdges chk xi y_set)).flatten :=
        List.mem_flatten.mpr ⟨rowEdges chk xi y_set, List.mem_map.mpr ⟨xi, hxi, rfl⟩, hevv⟩
      exact (rowEdges_colEdges_perm chk x_set y_set).mem_iff.mp hmem

/-- Witness for C10 on the graph built from `[0]`, `[0]`. -/
theorem matches_subset_edges_witness :
    (⟨0, 0, 1⟩ : EdgeData Nat) ∈
      (⟨[⟨0, [0], [⟨0, 0, 1⟩]⟩], [⟨0, [0], [⟨0, 0, 1⟩]⟩], [⟨0, 0, 1⟩],
          [⟨0, 0, 1⟩], true⟩ : MatchingGraph Nat).edges :=
  matches_subset_edges default_check [0] [0] true
    ⟨[⟨0, [0], [⟨0, 0, 1⟩]⟩], [⟨0, [0], [⟨0, 0, 1⟩]⟩], [⟨0, 0, 1⟩],
        [⟨0, 0, 1⟩], true⟩ (by rfl) ⟨0, 0, 1⟩ (by decide)
